import Mathlib

/-!
Verification of the serde layer and non-zero wrapper of the generic-ec crate.

The serde data model is embedded as a `Wire` tree: the token shapes that the
visitors in `src/generic-ec/src/serde.rs` dispatch on (string, raw bytes,
integer, map, sequence, newtype wrapper).  The curve backend (an external
collaborator per the spec) is abstracted as a `CurveOps` record of operations
together with a `CurveLaws` record of the properties the spec assigns to it.
The hex codec models the hex crate (`encode_to_slice` / `decode_to_slice`).
-/

/-- Wire models the serde data-model token shapes the deserializers dispatch on. -/
inductive Wire : Type
| str : String → Wire
| bytes : List Nat → Wire
| int : Nat → Wire
| map : List (String × Wire) → Wire
| seq : List Wire → Wire
| newtype : Wire → Wire

/-- Deserialization errors, mirroring `serde.rs` `error_msg` plus the serde and
hex error kinds the code produces.  `expectedCurve` models
`Error::custom(ExpectedCurve { expected, got })`; `invalidLength` models
`Error::invalid_length(actual, ExpectedLen(expected))`; `hexOddLength` and
`hexInvalidStringLength` model `Error::custom` of the corresponding
`hex::FromHexError` variants, which carry no length information;
`ambiguousShape` models the custom error raised by the `PreferCompact`
visitor on sequence input. -/
inductive DeError : Type
| expectedCurve (expected got : String)
| invalidLength (len expectedLen : Nat)
| invalidPoint
| invalidScalar
| zeroPoint
| zeroScalar
| ambiguousShape
| hexOddLength
| hexInvalidStringLength
| hexInvalidChar (c : Char) (index : Nat)
| invalidType (expected : String)
| duplicateField (field : String)
| missingField (field : String)
deriving DecidableEq, Repr

/-- Serialization errors: `ByteArrayTooLarge { len, supported_len }` from
`error_msg` in `serde.rs`. -/
inductive SerError : Type
| byteArrayTooLarge (len supportedLen : Nat)
deriving DecidableEq, Repr

/-- Lower-case hex digit for a nibble, as produced by `hex::encode_to_slice`. -/
def hexDigitChar (n : Nat) : Char :=
if n < 10 then Char.ofNat (48 + n) else Char.ofNat (87 + n)

/-- Value of a hex digit character, as accepted by `hex::decode_to_slice`
(`hex::val`): digits, lower-case and upper-case letters. -/
def hexCharVal (c : Char) : Option Nat :=
if 48 ≤ c.toNat ∧ c.toNat ≤ 57 then some (c.toNat - 48)
else if 97 ≤ c.toNat ∧ c.toNat ≤ 102 then some (c.toNat - 87)
else if 65 ≤ c.toNat ∧ c.toNat ≤ 70 then some (c.toNat - 55)
else none

/-- Hex encoding of a byte list (two lower-case digits per byte), modelling
`hex::encode_to_slice` into an exactly sized buffer. -/
def hexEncodeList : List Nat → List Char
| [] => []
| b :: rest => hexDigitChar (b / 16) :: hexDigitChar (b % 16) :: hexEncodeList rest

/-- Hex encoding of a byte list as a string. -/
def hexEncode (bs : List Nat) : String := String.mk (hexEncodeList bs)

/-- Pairwise hex decoding loop of `hex::decode_to_slice`; `index` is the byte
index inside the string, used in the invalid-character error. -/
def hexDecodePairs : List Char → Nat → Except DeError (List Nat)
| [], _ => Except.ok []
| [_], _ => Except.error DeError.hexOddLength
| c1 :: c2 :: rest, index =>
  match hexCharVal c1 with
  | none => Except.error (DeError.hexInvalidChar c1 index)
  | some hi =>
    match hexCharVal c2 with
    | none => Except.error (DeError.hexInvalidChar c2 (index + 1))
    | some lo =>
      match hexDecodePairs rest (index + 2) with
      | Except.error e => Except.error e
      | Except.ok tail => Except.ok ((hi * 16 + lo) :: tail)

/-- Model of `hex::decode_to_slice(s, out)` with `out.len() = outLen`: an odd
input length fails with `OddLength`, a length other than `2 * outLen` fails
with `InvalidStringLength` (neither error carries the lengths), otherwise the
digit pairs are decoded. -/
def hexDecodeToSlice (s : String) (outLen : Nat) : Except DeError (List Nat) :=
if s.data.length % 2 ≠ 0 then Except.error DeError.hexOddLength
else if s.data.length / 2 ≠ outLen then Except.error DeError.hexInvalidStringLength
else hexDecodePairs s.data 0

/-- Model of `impl SerializeAs<T> for Bytes` (`serde.rs` lines 616-648): in
human-readable mode the bytes are hex-encoded into a 256-byte scratch buffer,
failing with `ByteArrayTooLarge` when `2 * len > 256`; in binary mode the raw
bytes are emitted. -/
def bytesSerialize (humanReadable : Bool) (source : List Nat) : Except SerError Wire :=
if humanReadable then
  if source.length * 2 > 256 then
    Except.error (SerError.byteArrayTooLarge source.length 128)
  else
    Except.ok (Wire.str (hexEncode source))
else
  Except.ok (Wire.bytes source)

/-- Deserialization of one `u8` sequence element. -/
def u8FromWire : Wire → Except DeError Nat
| Wire.int n => if n < 256 then Except.ok n else Except.error (DeError.invalidType "u8")
| _ => Except.error (DeError.invalidType "u8")

/-- Loop of `BytesVisitor::visit_seq` (`serde.rs` lines 685-715): fill
`expectedLen` bytes, failing with `invalid_length(i, expected)` when the
sequence ends early at index `i`; afterwards count the unparsed trailing
elements and fail with `invalid_length(expectedLen + unparsed, expected)` if
any remain. -/
def bytesSeqGo (expectedLen : Nat) : Nat → List Wire → Except DeError (List Nat)
| i, [] => if i < expectedLen then Except.error (DeError.invalidLength i expectedLen) else Except.ok []
| i, w :: rest =>
  if i < expectedLen then
    match u8FromWire w with
    | Except.error e => Except.error e
    | Except.ok b =>
      match bytesSeqGo expectedLen (i + 1) rest with
      | Except.error e => Except.error e
      | Except.ok tail => Except.ok (b :: tail)
  else
    Except.error (DeError.invalidLength (expectedLen + (w :: rest).length) expectedLen)

/-- Model of `impl DeserializeAs<T> for Bytes` (`serde.rs` lines 650-724),
dispatching on the incoming token shape as `BytesVisitor` does: a string is
hex-decoded into the fixed-size target (hex errors surfacing via
`Error::custom`), raw bytes are length-checked exactly, a sequence is decoded
element by element with both too-short and trailing inputs rejected, and any
other shape is a type error. -/
def bytesDeserialize (expectedLen : Nat) : Wire → Except DeError (List Nat)
| Wire.str s => hexDecodeToSlice s expectedLen
| Wire.bytes v =>
  if v.length ≠ expectedLen then Except.error (DeError.invalidLength v.length expectedLen)
  else Except.ok v
| Wire.seq items => bytesSeqGo expectedLen 0 items
| Wire.int _ => Except.error (DeError.invalidType "bytes")
| Wire.map _ => Except.error (DeError.invalidType "bytes")
| Wire.newtype _ => Except.error (DeError.invalidType "bytes")

example : bytesSerialize true [0, 1, 255] = Except.ok (Wire.str (String.mk ['0', '0', '0', '1', 'f', 'f'])) := rfl

example : bytesDeserialize 3 (Wire.str (String.mk ['0', '0', '0', '1', 'f', 'f'])) = Except.ok [0, 1, 255] := rfl

example : bytesDeserialize 2 (Wire.seq [Wire.int 7]) = Except.error (DeError.invalidLength 1 2) := rfl

example : bytesDeserialize 2 (Wire.seq [Wire.int 7, Wire.int 8, Wire.int 9]) = Except.error (DeError.invalidLength 3 2) := rfl

/-- CurveOps abstracts the curve backend (the `Curve` trait of `generic-ec`):
a canonical name, point and scalar operations, and the fixed-size byte
encodings.  Modelled from the spec: src/ only contains the serde layer and
the non-zero wrapper, so the backend operations (`Point::zero`, `ct_eq`,
`Scalar::zero/one/invert`, `to_bytes_uncompressed/compressed`,
`Point::from_bytes`, `to_be_bytes`, `Scalar::from_be_bytes`) are kept
abstract here. -/
structure CurveOps (P S : Type) where
  name : String
  pZero : P
  pEq : P → P → Bool
  sZero : S
  sOne : S
  sEq : S → S → Bool
  sAdd : S → S → S
  sMul : S → S → S
  sInvert : S → Option S
  uncompressedLen : Nat
  compressedLen : Nat
  scalarLen : Nat
  toBytesUncompressed : P → List Nat
  toBytesCompressed : P → List Nat
  pointFromBytes : List Nat → Option P
  toBeBytes : S → List Nat
  scalarFromBeBytes : List Nat → Option S

/-- CurveLaws collects the properties the spec assigns to the curve backend
(section 6: fixed-size total encodings, fallible decodings inverting them,
constant-time equality deciding equality, and field structure on scalars). -/
structure CurveLaws {P S : Type} (c : CurveOps P S) : Prop where
  pEq_iff : ∀ a b : P, c.pEq a b = true ↔ a = b
  sEq_iff : ∀ a b : S, c.sEq a b = true ↔ a = b
  one_ne_zero : c.sOne ≠ c.sZero
  invert_isSome : ∀ s : S, s ≠ c.sZero → (c.sInvert s).isSome
  invert_mul : ∀ s t : S, c.sInvert s = some t → c.sMul s t = c.sOne
  mul_zero_right : ∀ a : S, c.sMul a c.sZero = c.sZero
  no_zero_div : ∀ a b : S, c.sMul a b = c.sZero → a = c.sZero ∨ b = c.sZero
  uncompressed_len : ∀ p : P, (c.toBytesUncompressed p).length = c.uncompressedLen
  compressed_len : ∀ p : P, (c.toBytesCompressed p).length = c.compressedLen
  scalar_len : ∀ s : S, (c.toBeBytes s).length = c.scalarLen
  uncompressed_bytes : ∀ p : P, ∀ b ∈ c.toBytesUncompressed p, b < 256
  compressed_bytes : ∀ p : P, ∀ b ∈ c.toBytesCompressed p, b < 256
  scalar_bytes : ∀ s : S, ∀ b ∈ c.toBeBytes s, b < 256
  round_uncompressed : ∀ p : P, c.pointFromBytes (c.toBytesUncompressed p) = some p
  round_compressed : ∀ p : P, c.pointFromBytes (c.toBytesCompressed p) = some p
  round_scalar : ∀ s : S, c.scalarFromBeBytes (c.toBeBytes s) = some s

/-- Model of `impl Serialize for CurveName<E>` (`serde.rs` lines 126-133):
emits the curve name as a string. -/
def curveNameSerialize {P S : Type} (c : CurveOps P S) : Wire := Wire.str c.name

/-- Model of `impl Deserialize for CurveName<E>` (`serde.rs` lines 136-163):
`CurveNameVisitor::visit_str` accepts exactly the expected curve name and
otherwise fails with `ExpectedCurve { expected, got }`; any non-string shape
is a type error. -/
def curveNameDeserialize {P S : Type} (c : CurveOps P S) : Wire → Except DeError Unit
| Wire.str v => if v = c.name then Except.ok () else Except.error (DeError.expectedCurve c.name v)
| _ => Except.error (DeError.invalidType "string")

/-- Processing of one map entry by the derived map deserializer for the
`PointUncompressed` record `{ curve, point }` (`serde.rs` lines 521-528): the
curve tag and the bytes field each deserialize into their accumulator slot,
duplicates are rejected, unknown fields are ignored. -/
def taggedStep {P S : Type} (c : CurveOps P S) (fieldName : String) (len : Nat)
    (st : Option Unit × Option (List Nat)) (entry : String × Wire) :
    Except DeError (Option Unit × Option (List Nat)) :=
  if entry.1 = "curve" then
    match st.1 with
    | some _ => Except.error (DeError.duplicateField "curve")
    | none =>
      match curveNameDeserialize c entry.2 with
      | Except.error e => Except.error e
      | Except.ok _ => Except.ok (some (), st.2)
  else if entry.1 = fieldName then
    match st.2 with
    | some _ => Except.error (DeError.duplicateField fieldName)
    | none =>
      match bytesDeserialize len entry.2 with
      | Except.error e => Except.error e
      | Except.ok bs => Except.ok (st.1, some bs)
  else Except.ok st

/-- Completion check of the derived map deserializer: both fields must be
present at the end. -/
def taggedFinish (fieldName : String) (st : Option Unit × Option (List Nat)) :
    Except DeError (List Nat) :=
  match st.1 with
  | none => Except.error (DeError.missingField "curve")
  | some _ =>
    match st.2 with
    | none => Except.error (DeError.missingField fieldName)
    | some bs => Except.ok bs

/-- Field-accumulating loop of the derived map deserializer: fields may come
in any order, unknown fields are skipped. -/
def taggedEntriesGo {P S : Type} (c : CurveOps P S) (fieldName : String) (len : Nat) :
    List (String × Wire) → Option Unit × Option (List Nat) → Except DeError (List Nat)
| [], st => taggedFinish fieldName st
| entry :: rest, st =>
  match taggedStep c fieldName len st entry with
  | Except.error e => Except.error e
  | Except.ok st2 => taggedEntriesGo c fieldName len rest st2

/-- Deserialization of a tagged record shape (curve tag plus one bytes field):
the derived struct deserializer accepts a map shape; other shapes are type
errors in the self-describing data model. -/
def taggedRecordDeserialize {P S : Type} (c : CurveOps P S) (fieldName : String) (len : Nat) :
    Wire → Except DeError (List Nat)
| Wire.map entries => taggedEntriesGo c fieldName len entries (none, none)
| _ => Except.error (DeError.invalidType "map")

/-- Model of `PointUncompressed::from(&Point)` followed by serde-derive
serialization (`serde.rs` lines 521-537): a record with the curve tag and the
uncompressed point bytes in `Bytes` encoding. -/
def pointSerializeDefault {P S : Type} (c : CurveOps P S) (humanReadable : Bool) (p : P) :
    Except SerError Wire :=
  match bytesSerialize humanReadable (c.toBytesUncompressed p) with
  | Except.error e => Except.error e
  | Except.ok bw => Except.ok (Wire.map [("curve", curveNameSerialize c), ("point", bw)])

/-- Model of `Point::deserialize` (`serde.rs` lines 182-191): deserialize the
`PointUncompressed` record, then `TryFrom` converts the bytes through
`Point::from_bytes`, failing with `InvalidPoint` (`serde.rs` lines 538-543). -/
def pointDeserializeDefault {P S : Type} (c : CurveOps P S) (w : Wire) : Except DeError P :=
  match taggedRecordDeserialize c "point" c.uncompressedLen w with
  | Except.error e => Except.error e
  | Except.ok bs =>
    match c.pointFromBytes bs with
    | some p => Except.ok p
    | none => Except.error DeError.invalidPoint

/-- Model of `ScalarUncompressed` serialization (`serde.rs` lines 564-580). -/
def scalarSerializeDefault {P S : Type} (c : CurveOps P S) (humanReadable : Bool) (s : S) :
    Except SerError Wire :=
  match bytesSerialize humanReadable (c.toBeBytes s) with
  | Except.error e => Except.error e
  | Except.ok bw => Except.ok (Wire.map [("curve", curveNameSerialize c), ("scalar", bw)])

/-- Model of `Scalar::deserialize` (`serde.rs` lines 202-211) via
`ScalarUncompressed` and `Scalar::from_be_bytes`, failing with
`InvalidScalar` (`serde.rs` lines 581-586). -/
def scalarDeserializeDefault {P S : Type} (c : CurveOps P S) (w : Wire) : Except DeError S :=
  match taggedRecordDeserialize c "scalar" c.scalarLen w with
  | Except.error e => Except.error e
  | Except.ok bs =>
    match c.scalarFromBeBytes bs with
    | some s => Except.ok s
    | none => Except.error DeError.invalidScalar

/-- Newtype-struct deserialization of the bytes field: the derived visitor
for `PointCompact` / `ScalarCompact` unwraps an explicit newtype token and
otherwise reads the field from the same input (`serde.rs` lines 545-562 and
588-603). -/
def newtypeBytesDeserialize (len : Nat) : Wire → Except DeError (List Nat)
| Wire.newtype inner => bytesDeserialize len inner
| w => bytesDeserialize len w

/-- Model of `Compact::serialize_as` for points (`serde.rs` lines 234-242):
the `PointCompact` newtype serializes transparently as its compressed bytes. -/
def pointSerializeCompact {P S : Type} (c : CurveOps P S) (humanReadable : Bool) (p : P) :
    Except SerError Wire :=
  bytesSerialize humanReadable (c.toBytesCompressed p)

/-- Model of `Compact::deserialize_as` for points (`serde.rs` lines 244-254):
deserialize `PointCompact`, then convert through `Point::from_bytes`. -/
def pointDeserializeCompact {P S : Type} (c : CurveOps P S) (w : Wire) : Except DeError P :=
  match newtypeBytesDeserialize c.compressedLen w with
  | Except.error e => Except.error e
  | Except.ok bs =>
    match c.pointFromBytes bs with
    | some p => Except.ok p
    | none => Except.error DeError.invalidPoint

/-- Model of `Compact::serialize_as` for scalars (`serde.rs` lines 256-264). -/
def scalarSerializeCompact {P S : Type} (c : CurveOps P S) (humanReadable : Bool) (s : S) :
    Except SerError Wire :=
  bytesSerialize humanReadable (c.toBeBytes s)

/-- Model of `Compact::deserialize_as` for scalars (`serde.rs` lines 266-276). -/
def scalarDeserializeCompact {P S : Type} (c : CurveOps P S) (w : Wire) : Except DeError S :=
  match newtypeBytesDeserialize c.scalarLen w with
  | Except.error e => Except.error e
  | Except.ok bs =>
    match c.scalarFromBeBytes bs with
    | some s => Except.ok s
    | none => Except.error DeError.invalidScalar

/-- NonZero is the wrapper of `non_zero/definition.rs`: it owns one value and
is built through the checked constructors below; `mk` itself models
`new_unchecked`. -/
structure NonZero (α : Type) where
  val : α

/-- CtOption models `subtle::CtOption`: a value plus a presence bit chosen in
constant time. -/
structure CtOption (α : Type) where
  value : α
  present : Bool

/-- Conversion of a `CtOption` into an `Option` (`subtle`): the value is
exposed exactly when the presence bit is set. -/
def CtOption.toOption {α : Type} (c : CtOption α) : Option α :=
  if c.present then some c.value else none

/-- Model of `NonZero::ct_from_point` (`non_zero/mod.rs` lines 26-34): the
wrapper is built unconditionally and the presence bit is the negated
constant-time comparison with `Point::zero`. -/
def ctFromPoint {P S : Type} (c : CurveOps P S) (p : P) : CtOption (NonZero P) :=
  { value := ⟨p⟩, present := !(c.pEq p c.pZero) }

/-- Model of `NonZero::from_point` (`non_zero/mod.rs` lines 19-21). -/
def fromPoint {P S : Type} (c : CurveOps P S) (p : P) : Option (NonZero P) :=
  (ctFromPoint c p).toOption

/-- Model of `NonZero::ct_from_scalar` (`non_zero/mod.rs` lines 54-62). -/
def ctFromScalar {P S : Type} (c : CurveOps P S) (s : S) : CtOption (NonZero S) :=
  { value := ⟨s⟩, present := !(c.sEq s c.sZero) }

/-- Model of `NonZero::from_scalar` (`non_zero/mod.rs` lines 47-49). -/
def fromScalar {P S : Type} (c : CurveOps P S) (s : S) : Option (NonZero S) :=
  (ctFromScalar c s).toOption

/-- Model of `NonZero::<Scalar>::one` (`non_zero/mod.rs` lines 39-42). -/
def nzOne {P S : Type} (c : CurveOps P S) : NonZero S := ⟨c.sOne⟩

/-- Model of `NonZero::<Scalar>::invert` (`non_zero/mod.rs` lines 68-75): the
inner fallible `Scalar::invert` is called and its `None` branch is the
`expect` panic, modelled as `none`. -/
def nzInvert {P S : Type} (c : CurveOps P S) (s : NonZero S) : Option (NonZero S) :=
  match c.sInvert s.val with
  | some inv => some ⟨inv⟩
  | none => none

/-- Multiplication of two non-zero scalars, wrapping the backend product.
Modelled from the spec: the arithmetic-operator module is not under src/;
section 4.1 specifies that the product of non-zero field elements stays
non-zero, so the operator rewraps the raw product. -/
def nzMul {P S : Type} (c : CurveOps P S) (a b : NonZero S) : NonZero S :=
  ⟨c.sMul a.val b.val⟩

/-- Model of `impl Sum<NonZero<Scalar>> for Scalar` (`non_zero/mod.rs` lines
106-110): fold of scalar addition seeded with `Scalar::zero`. -/
def nzSum {P S : Type} (c : CurveOps P S) (l : List (NonZero S)) : S :=
  l.foldl (fun acc x => c.sAdd acc x.val) c.sZero

/-- Model of `impl Product<NonZero<Scalar>> for NonZero<Scalar>`
(`non_zero/mod.rs` lines 118-122): fold of non-zero multiplication seeded
with `NonZero::one`. -/
def nzProduct {P S : Type} (c : CurveOps P S) (l : List (NonZero S)) : NonZero S :=
  l.foldl (fun acc x => nzMul c acc x) (nzOne c)

/-- Model of `TryFrom<Point> for NonZero<Point>` (`non_zero/mod.rs` lines
90-96): `from_point(..).ok_or(ZeroPoint)`. -/
def nzTryFromPoint {P S : Type} (c : CurveOps P S) (p : P) : Except DeError (NonZero P) :=
  match fromPoint c p with
  | some nz => Except.ok nz
  | none => Except.error DeError.zeroPoint

/-- Model of `TryFrom<Scalar> for NonZero<Scalar>` (`non_zero/mod.rs` lines
98-104): `from_scalar(..).ok_or(ZeroScalar)`. -/
def nzTryFromScalar {P S : Type} (c : CurveOps P S) (s : S) : Except DeError (NonZero S) :=
  match fromScalar c s with
  | some nz => Except.ok nz
  | none => Except.error DeError.zeroScalar

/-- Model of `impl DeserializeAs<NonZero<Point>> for Compact` (`serde.rs`
lines 313-326): deserialize the inner point, then re-validate through
`TryFrom`, surfacing `ZeroPoint` via `Error::custom`. -/
def nonZeroPointDeserializeCompact {P S : Type} (c : CurveOps P S) (w : Wire) :
    Except DeError (NonZero P) :=
  match pointDeserializeCompact c w with
  | Except.error e => Except.error e
  | Except.ok p => nzTryFromPoint c p

/-- Model of `impl DeserializeAs<NonZero<Scalar>> for Compact` (`serde.rs`
lines 313-326) at scalar type. -/
def nonZeroScalarDeserializeCompact {P S : Type} (c : CurveOps P S) (w : Wire) :
    Except DeError (NonZero S) :=
  match scalarDeserializeCompact c w with
  | Except.error e => Except.error e
  | Except.ok s => nzTryFromScalar c s

/-- Model of `impl DeserializeAs for PreferCompact` (`serde.rs` lines
366-446), generic in the compact decoder (`Compact::deserialize_as`) and the
default decoder (`T::deserialize`): bytes and strings go to the compact
decoder behind a `NewTypeDeserializer`, a map is handed to the default tagged
decoder, an explicit newtype wrapper goes to the compact decoder, a sequence
is rejected as ambiguous regardless of content, and any other token is a type
error from `deserialize_any`. -/
def preferCompactDeserialize {α : Type} (compactDecode : Wire → Except DeError α)
    (defaultDecode : Wire → Except DeError α) : Wire → Except DeError α
| Wire.bytes v => compactDecode (Wire.newtype (Wire.bytes v))
| Wire.str s => compactDecode (Wire.newtype (Wire.str s))
| Wire.seq _ => Except.error DeError.ambiguousShape
| Wire.map entries => defaultDecode (Wire.map entries)
| Wire.newtype d => compactDecode (Wire.newtype d)
| Wire.int _ => Except.error (DeError.invalidType "preferably compact point or scalar")

/-- PreferCompact deserialization instantiated at points. -/
def preferCompactDeserializePoint {P S : Type} (c : CurveOps P S) : Wire → Except DeError P :=
  preferCompactDeserialize (pointDeserializeCompact c) (pointDeserializeDefault c)

/-- PreferCompact deserialization instantiated at scalars. -/
def preferCompactDeserializeScalar {P S : Type} (c : CurveOps P S) : Wire → Except DeError S :=
  preferCompactDeserialize (scalarDeserializeCompact c) (scalarDeserializeDefault c)

/-- Model of `impl SerializeAs<T> for PreferCompact` (`serde.rs` lines
354-364): writing delegates to `Compact`, at point type. -/
def preferCompactSerializePoint {P S : Type} (c : CurveOps P S) (humanReadable : Bool) (p : P) :
    Except SerError Wire :=
  pointSerializeCompact c humanReadable p

/-- Model of `impl SerializeAs<T> for PreferCompact` at scalar type. -/
def preferCompactSerializeScalar {P S : Type} (c : CurveOps P S) (humanReadable : Bool) (s : S) :
    Except SerError Wire :=
  scalarSerializeCompact c humanReadable s

/-- CoordsOps abstracts the `HasAffineX` / `HasAffineY` backend capabilities
used by `non_zero/coords.rs`.  Modelled from the spec: the coordinate traits
are not under src/; they expose fallible affine coordinate accessors. -/
structure CoordsOps (P C : Type) where
  x : P → Option C
  y : P → Option C

/-- CoordsLaws records the property the source comments rely on: the only
point that may lack affine coordinates is the identity point. -/
structure CoordsLaws {P S C : Type} (c : CurveOps P S) (k : CoordsOps P C) : Prop where
  x_none : ∀ p : P, k.x p = none → p = c.pZero
  y_none : ∀ p : P, k.y p = none → p = c.pZero

/-- Model of `AlwaysHasAffineX for NonZero<Point>` (`non_zero/coords.rs`
lines 8-18): the inner fallible accessor is called and its `None` branch is
the `expect` panic, modelled as `none`. -/
def nzX {P C : Type} (k : CoordsOps P C) (p : NonZero P) : Option C := k.x p.val

/-- Model of `AlwaysHasAffineY for NonZero<Point>` (`non_zero/coords.rs`
lines 20-30). -/
def nzY {P C : Type} (k : CoordsOps P C) (p : NonZero P) : Option C := k.y p.val

/-- Decode for the test curve points: `[4, b]` is the uncompressed form,
`[b]` the compressed form, valid when the coordinate byte is in range. -/
def testPointFromBytes : List Nat → Option (ZMod 5)
| [4, b] => if b < 5 then some (b : ZMod 5) else none
| [b] => if b < 5 then some (b : ZMod 5) else none
| _ => none

/-- Decode for the test curve scalars. -/
def testScalarFromBytes : List Nat → Option (ZMod 5)
| [b] => if b < 5 then some (b : ZMod 5) else none
| _ => none

/-- A tiny concrete curve backend over the field with five elements, used to
instantiate the generic theorems on explicit inputs. -/
def testCurveA : CurveOps (ZMod 5) (ZMod 5) :=
  { name := "test_curve_a"
    pZero := 0
    pEq := fun a b => decide (a = b)
    sZero := 0
    sOne := 1
    sEq := fun a b => decide (a = b)
    sAdd := fun a b => a + b
    sMul := fun a b => a * b
    sInvert := fun s => if s = 0 then none else some (s * s * s)
    uncompressedLen := 2
    compressedLen := 1
    scalarLen := 1
    toBytesUncompressed := fun p => [4, p.val]
    toBytesCompressed := fun p => [p.val]
    pointFromBytes := testPointFromBytes
    toBeBytes := fun s => [s.val]
    scalarFromBeBytes := testScalarFromBytes }

/-- A second concrete curve differing from the first only in its name, used
for the curve-mismatch scenarios. -/
def testCurveB : CurveOps (ZMod 5) (ZMod 5) :=
  { testCurveA with name := "test_curve_b" }

/-- Affine coordinate accessors for the test curve: every point except the
identity has coordinates. -/
def testCoords : CoordsOps (ZMod 5) (ZMod 5) :=
  { x := fun p => if p = 0 then none else some p
    y := fun p => if p = 0 then none else some (p + 1) }

/-- The test curve satisfies the backend laws. -/
theorem testCurveA_laws : CurveLaws testCurveA := by
  constructor <;> decide

/-- The second test curve satisfies the backend laws. -/
theorem testCurveB_laws : CurveLaws testCurveB := by
  constructor <;> decide

/-- The test coordinate accessors satisfy the coordinate laws. -/
theorem testCoords_laws : CoordsLaws testCurveA testCoords := by
  constructor <;> decide

/-- Encoding and decoding of a single hex digit cancel. -/
theorem hexCharVal_hexDigitChar (n : Nat) (h : n < 16) :
    hexCharVal (hexDigitChar n) = some n := by
  interval_cases n <;> rfl

/-- Hex encoding doubles the length. -/
theorem hexEncodeList_length (bs : List Nat) : (hexEncodeList bs).length = 2 * bs.length := by
  induction bs with
  | nil => rfl
  | cons b rest ih => simp [hexEncodeList, ih]; omega

/-- Pairwise hex decoding inverts the encoding on byte lists, at every start
index. -/
theorem hexDecodePairs_hexEncodeList (bs : List Nat) (hb : ∀ b ∈ bs, b < 256) (index : Nat) :
    hexDecodePairs (hexEncodeList bs) index = Except.ok bs := by
  induction bs generalizing index with
  | nil => rfl
  | cons b rest ih =>
    have hblt : b < 256 := hb b (List.mem_cons_self b rest)
    have hhi : b / 16 < 16 := by omega
    have hlo : b % 16 < 16 := by omega
    have hrest : ∀ x ∈ rest, x < 256 := fun x hx => hb x (List.mem_cons_of_mem b hx)
    simp only [hexEncodeList, hexDecodePairs, hexCharVal_hexDigitChar _ hhi,
      hexCharVal_hexDigitChar _ hlo, ih hrest]
    have : b / 16 * 16 + b % 16 = b := by omega
    rw [this]

/-- Hex decoding into a buffer of the right size inverts hex encoding. -/
theorem hexDecodeToSlice_hexEncode (bs : List Nat) (hb : ∀ b ∈ bs, b < 256) :
    hexDecodeToSlice (hexEncode bs) bs.length = Except.ok bs := by
  have hlen : (hexEncode bs).data.length = 2 * bs.length := hexEncodeList_length bs
  have h1 : ¬ ((hexEncode bs).data.length % 2 ≠ 0) := by rw [hlen]; omega
  have h2 : ¬ ((hexEncode bs).data.length / 2 ≠ bs.length) := by rw [hlen]; omega
  unfold hexDecodeToSlice
  rw [if_neg h1, if_neg h2]
  exact hexDecodePairs_hexEncodeList bs hb 0

/-- Serializing through the `Bytes` codec and deserializing with the matching
expected length recovers the bytes, in both human-readable and binary modes. -/
theorem bytesSerialize_then_deserialize (humanReadable : Bool) (bs : List Nat)
    (hb : ∀ b ∈ bs, b < 256) (w : Wire) (h : bytesSerialize humanReadable bs = Except.ok w) :
    bytesDeserialize bs.length w = Except.ok bs := by
  cases humanReadable with
  | false =>
    simp only [bytesSerialize, Bool.false_eq_true, if_false, Except.ok.injEq] at h
    subst h
    simp [bytesDeserialize]
  | true =>
    simp only [bytesSerialize, if_true] at h
    by_cases hlen : bs.length * 2 > 256
    · rw [if_pos hlen] at h
      exact absurd h (by simp)
    · rw [if_neg hlen] at h
      simp only [Except.ok.injEq] at h
      subst h
      simpa [bytesDeserialize] using hexDecodeToSlice_hexEncode bs hb

/-- Serialization through the `Bytes` codec succeeds whenever the buffer fits
the scratch encoding buffer. -/
theorem bytesSerialize_ok (humanReadable : Bool) (bs : List Nat) (hfit : 2 * bs.length ≤ 256) :
    ∃ w, bytesSerialize humanReadable bs = Except.ok w := by
  cases humanReadable with
  | false => exact ⟨Wire.bytes bs, rfl⟩
  | true =>
    refine ⟨Wire.str (hexEncode bs), ?_⟩
    unfold bytesSerialize
    rw [if_pos rfl, if_neg (by omega)]

/-- Deserializing a well-formed tagged record (curve tag first, then the bytes
field) succeeds once the bytes field deserializes. -/
theorem taggedEntries_roundtrip {P S : Type} (c : CurveOps P S) (fieldName : String)
    (hf : fieldName ≠ "curve") (len : Nat) (bw : Wire) (bs : List Nat)
    (hbw : bytesDeserialize len bw = Except.ok bs) :
    taggedRecordDeserialize c fieldName len
      (Wire.map [("curve", Wire.str c.name), (fieldName, bw)]) = Except.ok bs := by
  have hstep1 : taggedStep c fieldName len (none, none) ("curve", Wire.str c.name)
      = Except.ok (some (), none) := by
    simp [taggedStep, curveNameDeserialize]
  have hstep2 : taggedStep c fieldName len (some (), none) (fieldName, bw)
      = Except.ok (some (), some bs) := by
    simp only [taggedStep]
    rw [if_neg hf]
    simp only [if_true]
    rw [hbw]
  simp only [taggedRecordDeserialize, taggedEntriesGo, hstep1, hstep2, taggedFinish]

/-- Deserializing a tagged record whose curve tag names a different curve
fails with the curve-mismatch error carrying both names. -/
theorem taggedEntries_wrong_curve {P S : Type} (c : CurveOps P S) (fieldName : String)
    (len : Nat) (gotName : String) (hne : gotName ≠ c.name) (bw : Wire) :
    taggedRecordDeserialize c fieldName len
      (Wire.map [("curve", Wire.str gotName), (fieldName, bw)]) =
      Except.error (DeError.expectedCurve c.name gotName) := by
  have hstep1 : taggedStep c fieldName len (none, none) ("curve", Wire.str gotName)
      = Except.error (DeError.expectedCurve c.name gotName) := by
    simp [taggedStep, curveNameDeserialize, hne]
  simp only [taggedRecordDeserialize, taggedEntriesGo, hstep1]

/-- Output of a successful `Bytes` serialization is a string or a raw byte
token, so the newtype-unwrapping visitor treats it like the plain `Bytes`
deserializer. -/
theorem newtypeBytesDeserialize_of_serialized (humanReadable : Bool) (bs : List Nat) (bw : Wire)
    (h : bytesSerialize humanReadable bs = Except.ok bw) (len : Nat) :
    newtypeBytesDeserialize len bw = bytesDeserialize len bw := by
  cases humanReadable with
  | false =>
    simp only [bytesSerialize, Bool.false_eq_true, if_false, Except.ok.injEq] at h
    subst h
    rfl
  | true =>
    simp only [bytesSerialize, if_true] at h
    by_cases hlen : bs.length * 2 > 256
    · rw [if_pos hlen] at h
      exact absurd h (by simp)
    · rw [if_neg hlen] at h
      simp only [Except.ok.injEq] at h
      subst h
      rfl

/-- Round trip of a point through the default tagged format. -/
theorem pointDefault_roundtrip {P S : Type} (c : CurveOps P S) (hL : CurveLaws c)
    (hU : 2 * c.uncompressedLen ≤ 256) (humanReadable : Bool) (p : P) :
    ∃ w, pointSerializeDefault c humanReadable p = Except.ok w ∧
      pointDeserializeDefault c w = Except.ok p := by
  obtain ⟨bw, hbw⟩ := bytesSerialize_ok humanReadable (c.toBytesUncompressed p)
    (by rw [hL.uncompressed_len]; exact hU)
  refine ⟨Wire.map [("curve", Wire.str c.name), ("point", bw)], ?_, ?_⟩
  · unfold pointSerializeDefault
    rw [hbw]
    rfl
  · have hbytes : bytesDeserialize c.uncompressedLen bw = Except.ok (c.toBytesUncompressed p) := by
      have := bytesSerialize_then_deserialize humanReadable (c.toBytesUncompressed p)
        (hL.uncompressed_bytes p) bw hbw
      rwa [hL.uncompressed_len] at this
    unfold pointDeserializeDefault
    rw [taggedEntries_roundtrip c "point" (by decide) c.uncompressedLen bw _ hbytes]
    simp [hL.round_uncompressed]

/-- Round trip of a scalar through the default tagged format. -/
theorem scalarDefault_roundtrip {P S : Type} (c : CurveOps P S) (hL : CurveLaws c)
    (hS : 2 * c.scalarLen ≤ 256) (humanReadable : Bool) (s : S) :
    ∃ w, scalarSerializeDefault c humanReadable s = Except.ok w ∧
      scalarDeserializeDefault c w = Except.ok s := by
  obtain ⟨bw, hbw⟩ := bytesSerialize_ok humanReadable (c.toBeBytes s)
    (by rw [hL.scalar_len]; exact hS)
  refine ⟨Wire.map [("curve", Wire.str c.name), ("scalar", bw)], ?_, ?_⟩
  · unfold scalarSerializeDefault
    rw [hbw]
    rfl
  · have hbytes : bytesDeserialize c.scalarLen bw = Except.ok (c.toBeBytes s) := by
      have := bytesSerialize_then_deserialize humanReadable (c.toBeBytes s)
        (hL.scalar_bytes s) bw hbw
      rwa [hL.scalar_len] at this
    unfold scalarDeserializeDefault
    rw [taggedEntries_roundtrip c "scalar" (by decide) c.scalarLen bw _ hbytes]
    simp [hL.round_scalar]

/-- Round trip of a point through the Compact format. -/
theorem pointCompact_roundtrip {P S : Type} (c : CurveOps P S) (hL : CurveLaws c)
    (hC : 2 * c.compressedLen ≤ 256) (humanReadable : Bool) (p : P) :
    ∃ w, pointSerializeCompact c humanReadable p = Except.ok w ∧
      pointDeserializeCompact c w = Except.ok p := by
  obtain ⟨bw, hbw⟩ := bytesSerialize_ok humanReadable (c.toBytesCompressed p)
    (by rw [hL.compressed_len]; exact hC)
  refine ⟨bw, hbw, ?_⟩
  have hbytes : bytesDeserialize c.compressedLen bw = Except.ok (c.toBytesCompressed p) := by
    have := bytesSerialize_then_deserialize humanReadable (c.toBytesCompressed p)
      (hL.compressed_bytes p) bw hbw
    rwa [hL.compressed_len] at this
  unfold pointDeserializeCompact
  rw [newtypeBytesDeserialize_of_serialized humanReadable _ bw hbw, hbytes]
  simp [hL.round_compressed]

/-- Round trip of a scalar through the Compact format. -/
theorem scalarCompact_roundtrip {P S : Type} (c : CurveOps P S) (hL : CurveLaws c)
    (hS : 2 * c.scalarLen ≤ 256) (humanReadable : Bool) (s : S) :
    ∃ w, scalarSerializeCompact c humanReadable s = Except.ok w ∧
      scalarDeserializeCompact c w = Except.ok s := by
  obtain ⟨bw, hbw⟩ := bytesSerialize_ok humanReadable (c.toBeBytes s)
    (by rw [hL.scalar_len]; exact hS)
  refine ⟨bw, hbw, ?_⟩
  have hbytes : bytesDeserialize c.scalarLen bw = Except.ok (c.toBeBytes s) := by
    have := bytesSerialize_then_deserialize humanReadable (c.toBeBytes s)
      (hL.scalar_bytes s) bw hbw
    rwa [hL.scalar_len] at this
  unfold scalarDeserializeCompact
  rw [newtypeBytesDeserialize_of_serialized humanReadable _ bw hbw, hbytes]
  simp [hL.round_scalar]

/-- C1: for every curve satisfying the backend contract (with encodings that
fit the hex scratch buffer) and every point and scalar, serializing in the
default tagged uncompressed format and deserializing the result yields the
original value, and likewise for the Compact format, in both human-readable
and binary modes. -/
theorem claim_c1_round_trip {P S : Type} (c : CurveOps P S) (hL : CurveLaws c)
    (hU : 2 * c.uncompressedLen ≤ 256) (hC : 2 * c.compressedLen ≤ 256)
    (hS : 2 * c.scalarLen ≤ 256) (humanReadable : Bool) (p : P) (s : S) :
    (∃ w, pointSerializeDefault c humanReadable p = Except.ok w ∧
      pointDeserializeDefault c w = Except.ok p) ∧
    (∃ w, pointSerializeCompact c humanReadable p = Except.ok w ∧
      pointDeserializeCompact c w = Except.ok p) ∧
    (∃ w, scalarSerializeDefault c humanReadable s = Except.ok w ∧
      scalarDeserializeDefault c w = Except.ok s) ∧
    (∃ w, scalarSerializeCompact c humanReadable s = Except.ok w ∧
      scalarDeserializeCompact c w = Except.ok s) :=
  ⟨pointDefault_roundtrip c hL hU humanReadable p,
   pointCompact_roundtrip c hL hC humanReadable p,
   scalarDefault_roundtrip c hL hS humanReadable s,
   scalarCompact_roundtrip c hL hS humanReadable s⟩

/-- Witness for C1 on the concrete test curve. -/
theorem claim_c1_round_trip_witness :
    (∃ w, pointSerializeDefault testCurveA true (2 : ZMod 5) = Except.ok w ∧
      pointDeserializeDefault testCurveA w = Except.ok (2 : ZMod 5)) ∧
    (∃ w, pointSerializeCompact testCurveA true (2 : ZMod 5) = Except.ok w ∧
      pointDeserializeCompact testCurveA w = Except.ok (2 : ZMod 5)) ∧
    (∃ w, scalarSerializeDefault testCurveA true (3 : ZMod 5) = Except.ok w ∧
      scalarDeserializeDefault testCurveA w = Except.ok (3 : ZMod 5)) ∧
    (∃ w, scalarSerializeCompact testCurveA true (3 : ZMod 5) = Except.ok w ∧
      scalarDeserializeCompact testCurveA w = Except.ok (3 : ZMod 5)) :=
  claim_c1_round_trip testCurveA testCurveA_laws (by decide) (by decide) (by decide) true 2 3

/-- Presence bit of a `CtOption` is preserved by the conversion to `Option`. -/
theorem CtOption.isSome_toOption {α : Type} (x : CtOption α) :
    x.toOption.isSome = x.present := by
  unfold CtOption.toOption
  cases hp : x.present <;> simp

/-- C2: `from_point` is present exactly on non-identity points, `from_scalar`
is present exactly on non-zero scalars, and the constant-time constructors
agree with the plain ones on presence for every input. -/
theorem claim_c2_nonzero_construction {P S : Type} (c : CurveOps P S) (hL : CurveLaws c)
    (p : P) (s : S) :
    ((fromPoint c p).isSome ↔ p ≠ c.pZero) ∧
    ((fromScalar c s).isSome ↔ s ≠ c.sZero) ∧
    (fromPoint c p).isSome = (ctFromPoint c p).present ∧
    (fromScalar c s).isSome = (ctFromScalar c s).present := by
  refine ⟨?_, ?_, CtOption.isSome_toOption _, CtOption.isSome_toOption _⟩
  · by_cases hz : p = c.pZero
    · subst hz
      have heq : c.pEq c.pZero c.pZero = true := (hL.pEq_iff _ _).mpr rfl
      simp [fromPoint, ctFromPoint, CtOption.toOption, heq]
    · have hne : c.pEq p c.pZero = false := by
        cases h : c.pEq p c.pZero
        · rfl
        · exact absurd ((hL.pEq_iff _ _).mp h) hz
      simp [fromPoint, ctFromPoint, CtOption.toOption, hne, hz]
  · by_cases hz : s = c.sZero
    · subst hz
      have heq : c.sEq c.sZero c.sZero = true := (hL.sEq_iff _ _).mpr rfl
      simp [fromScalar, ctFromScalar, CtOption.toOption, heq]
    · have hne : c.sEq s c.sZero = false := by
        cases h : c.sEq s c.sZero
        · rfl
        · exact absurd ((hL.sEq_iff _ _).mp h) hz
      simp [fromScalar, ctFromScalar, CtOption.toOption, hne, hz]

/-- Witness for C2 on the concrete test curve. -/
theorem claim_c2_nonzero_construction_witness :
    ((fromPoint testCurveA (1 : ZMod 5)).isSome ↔ (1 : ZMod 5) ≠ testCurveA.pZero) ∧
    ((fromScalar testCurveA (2 : ZMod 5)).isSome ↔ (2 : ZMod 5) ≠ testCurveA.sZero) ∧
    (fromPoint testCurveA (1 : ZMod 5)).isSome = (ctFromPoint testCurveA (1 : ZMod 5)).present ∧
    (fromScalar testCurveA (2 : ZMod 5)).isSome = (ctFromScalar testCurveA (2 : ZMod 5)).present :=
  claim_c2_nonzero_construction testCurveA testCurveA_laws 1 2

/-- C3: inversion of a non-zero scalar always succeeds (the panic branch is
unreachable), produces a non-zero scalar, and multiplying back gives one. -/
theorem claim_c3_invert {P S : Type} (c : CurveOps P S) (hL : CurveLaws c)
    (s : NonZero S) (h : s.val ≠ c.sZero) :
    ∃ r, nzInvert c s = some r ∧ r.val ≠ c.sZero ∧ c.sMul s.val r.val = c.sOne := by
  obtain ⟨t, ht⟩ := Option.isSome_iff_exists.mp (hL.invert_isSome s.val h)
  refine ⟨⟨t⟩, ?_, ?_, hL.invert_mul s.val t ht⟩
  · simp [nzInvert, ht]
  · intro hz
    have hmul := hL.invert_mul s.val t ht
    rw [show t = c.sZero from hz, hL.mul_zero_right] at hmul
    exact hL.one_ne_zero hmul.symm

/-- Witness for C3 on the concrete test curve. -/
theorem claim_c3_invert_witness :
    (NonZero.val ⟨(2 : ZMod 5)⟩ ≠ testCurveA.sZero) ∧
    ∃ r, nzInvert testCurveA ⟨(2 : ZMod 5)⟩ = some r ∧ r.val ≠ testCurveA.sZero ∧
      testCurveA.sMul (NonZero.val ⟨(2 : ZMod 5)⟩) r.val = testCurveA.sOne :=
  ⟨by decide, claim_c3_invert testCurveA testCurveA_laws ⟨(2 : ZMod 5)⟩ (by decide)⟩

/-- Fold of non-zero multiplications starting from a non-zero accumulator
stays non-zero. -/
theorem foldl_nzMul_ne_zero {P S : Type} (c : CurveOps P S) (hL : CurveLaws c) :
    ∀ (l : List (NonZero S)) (acc : NonZero S), acc.val ≠ c.sZero →
      (∀ x ∈ l, x.val ≠ c.sZero) →
      (List.foldl (fun a x => nzMul c a x) acc l).val ≠ c.sZero := by
  intro l
  induction l with
  | nil => intro acc hacc _; exact hacc
  | cons x rest ih =>
    intro acc hacc hall
    have hx : x.val ≠ c.sZero := hall x (List.mem_cons_self x rest)
    have hstep : (nzMul c acc x).val ≠ c.sZero := by
      intro hz
      rcases hL.no_zero_div acc.val x.val hz with h1 | h1
      · exact hacc h1
      · exact hx h1
    exact ih (nzMul c acc x) hstep (fun y hy => hall y (List.mem_cons_of_mem x hy))

/-- C4: the Sum fold over non-zero scalars is seeded with zero (so the empty
sum is zero and the result may be zero), while the Product fold is seeded
with one and the product of non-zero scalars is never zero; a concrete
non-empty sum of non-zero scalars that equals zero exists on the test
curve. -/
theorem claim_c4_sum_product {P S : Type} (c : CurveOps P S) (hL : CurveLaws c)
    (l : List (NonZero S)) :
    nzSum c [] = c.sZero ∧
    (nzProduct c []).val = c.sOne ∧
    ((∀ x ∈ l, x.val ≠ c.sZero) → (nzProduct c l).val ≠ c.sZero) ∧
    (∃ m : List (NonZero (ZMod 5)), m ≠ [] ∧ (∀ x ∈ m, x.val ≠ testCurveA.sZero) ∧
      nzSum testCurveA m = testCurveA.sZero) := by
  refine ⟨rfl, rfl, ?_, ⟨[⟨2⟩, ⟨3⟩], by simp, by decide, by decide⟩⟩
  intro hall
  exact foldl_nzMul_ne_zero c hL l (nzOne c) (by simpa [nzOne] using hL.one_ne_zero) hall

/-- Witness for C4 on the concrete test curve. -/
theorem claim_c4_sum_product_witness :
    nzSum testCurveA [] = testCurveA.sZero ∧
    (nzProduct testCurveA []).val = testCurveA.sOne ∧
    ((∀ x ∈ [(⟨2⟩ : NonZero (ZMod 5)), ⟨4⟩], x.val ≠ testCurveA.sZero) →
      (nzProduct testCurveA [(⟨2⟩ : NonZero (ZMod 5)), ⟨4⟩]).val ≠ testCurveA.sZero) ∧
    (∃ m : List (NonZero (ZMod 5)), m ≠ [] ∧ (∀ x ∈ m, x.val ≠ testCurveA.sZero) ∧
      nzSum testCurveA m = testCurveA.sZero) :=
  claim_c4_sum_product testCurveA testCurveA_laws [⟨2⟩, ⟨4⟩]

/-- Successful default point serialization always yields the tagged map shape
with the curve name first. -/
theorem pointSerializeDefault_shape {P S : Type} (c : CurveOps P S) (humanReadable : Bool)
    (p : P) (w : Wire) (h : pointSerializeDefault c humanReadable p = Except.ok w) :
    ∃ bw, w = Wire.map [("curve", Wire.str c.name), ("point", bw)] := by
  unfold pointSerializeDefault at h
  cases hb : bytesSerialize humanReadable (c.toBytesUncompressed p) with
  | error e => rw [hb] at h; exact absurd h (by simp)
  | ok bw =>
    rw [hb] at h
    simp only [curveNameSerialize, Except.ok.injEq] at h
    exact ⟨bw, h.symm⟩

/-- Successful default scalar serialization always yields the tagged map
shape with the curve name first. -/
theorem scalarSerializeDefault_shape {P S : Type} (c : CurveOps P S) (humanReadable : Bool)
    (s : S) (w : Wire) (h : scalarSerializeDefault c humanReadable s = Except.ok w) :
    ∃ bw, w = Wire.map [("curve", Wire.str c.name), ("scalar", bw)] := by
  unfold scalarSerializeDefault at h
  cases hb : bytesSerialize humanReadable (c.toBeBytes s) with
  | error e => rw [hb] at h; exact absurd h (by simp)
  | ok bw =>
    rw [hb] at h
    simp only [curveNameSerialize, Except.ok.injEq] at h
    exact ⟨bw, h.symm⟩

/-- C5: `CurveName` deserialization succeeds exactly on the expected name
(case-sensitive string equality), a mismatch carries both the expected and
the received names, and consequently a value serialized in the default tagged
format for one curve fails to deserialize for a curve with a different name,
with the curve-mismatch error. -/
theorem claim_c5_curve_name_guard {PA SA PB SB : Type} (cA : CurveOps PA SA)
    (cB : CurveOps PB SB) (v : String) (hne : cA.name ≠ cB.name) (humanReadable : Bool)
    (p : PA) (s : SA) (wp ws : Wire)
    (hp : pointSerializeDefault cA humanReadable p = Except.ok wp)
    (hs : scalarSerializeDefault cA humanReadable s = Except.ok ws) :
    (curveNameDeserialize cB (Wire.str v) = Except.ok () ↔ v = cB.name) ∧
    (v ≠ cB.name →
      curveNameDeserialize cB (Wire.str v) = Except.error (DeError.expectedCurve cB.name v)) ∧
    pointDeserializeDefault cB wp = Except.error (DeError.expectedCurve cB.name cA.name) ∧
    scalarDeserializeDefault cB ws = Except.error (DeError.expectedCurve cB.name cA.name) := by
  refine ⟨?_, ?_, ?_, ?_⟩
  · by_cases hv : v = cB.name
    · simp [curveNameDeserialize, hv]
    · simp [curveNameDeserialize, hv]
  · intro hv
    simp [curveNameDeserialize, hv]
  · obtain ⟨bw, rfl⟩ := pointSerializeDefault_shape cA humanReadable p wp hp
    unfold pointDeserializeDefault
    rw [taggedEntries_wrong_curve cB "point" cB.uncompressedLen cA.name hne bw]
  · obtain ⟨bw, rfl⟩ := scalarSerializeDefault_shape cA humanReadable s ws hs
    unfold scalarDeserializeDefault
    rw [taggedEntries_wrong_curve cB "scalar" cB.scalarLen cA.name hne bw]

/-- Witness for C5 on the two concrete test curves. -/
theorem claim_c5_curve_name_guard_witness :
    (curveNameDeserialize testCurveB (Wire.str "nistp256") = Except.ok () ↔
      "nistp256" = testCurveB.name) ∧
    ("nistp256" ≠ testCurveB.name →
      curveNameDeserialize testCurveB (Wire.str "nistp256") =
        Except.error (DeError.expectedCurve testCurveB.name "nistp256")) ∧
    pointDeserializeDefault testCurveB
        (Wire.map [("curve", Wire.str "test_curve_a"),
          ("point", Wire.str (String.mk ['0', '4', '0', '1']))]) =
      Except.error (DeError.expectedCurve testCurveB.name testCurveA.name) ∧
    scalarDeserializeDefault testCurveB
        (Wire.map [("curve", Wire.str "test_curve_a"),
          ("scalar", Wire.str (String.mk ['0', '1']))]) =
      Except.error (DeError.expectedCurve testCurveB.name testCurveA.name) :=
  claim_c5_curve_name_guard testCurveA testCurveB "nistp256" (by decide) true 1 1
    (Wire.map [("curve", Wire.str "test_curve_a"),
      ("point", Wire.str (String.mk ['0', '4', '0', '1']))])
    (Wire.map [("curve", Wire.str "test_curve_a"),
      ("scalar", Wire.str (String.mk ['0', '1']))]) rfl rfl

/-- PreferCompact accepts the output of Compact serialization and recovers
the original point. -/
theorem preferCompact_accepts_compact_point {P S : Type} (c : CurveOps P S) (hL : CurveLaws c)
    (hC : 2 * c.compressedLen ≤ 256) (humanReadable : Bool) (p : P) (w : Wire)
    (h : pointSerializeCompact c humanReadable p = Except.ok w) :
    preferCompactDeserializePoint c w = Except.ok p := by
  obtain ⟨w2, hw2, hdes⟩ := pointCompact_roundtrip c hL hC humanReadable p
  rw [h] at hw2
  simp only [Except.ok.injEq] at hw2
  subst hw2
  have hshape := h
  unfold pointSerializeCompact at hshape
  cases humanReadable with
  | false =>
    simp only [bytesSerialize, Bool.false_eq_true, if_false, Except.ok.injEq] at hshape
    subst hshape
    exact hdes
  | true =>
    simp only [bytesSerialize, if_true] at hshape
    by_cases hlen : (c.toBytesCompressed p).length * 2 > 256
    · rw [if_pos hlen] at hshape
      exact absurd hshape (by simp)
    · rw [if_neg hlen] at hshape
      simp only [Except.ok.injEq] at hshape
      subst hshape
      exact hdes

/-- PreferCompact accepts the output of default tagged serialization and
recovers the original point through the default logic. -/
theorem preferCompact_accepts_default_point {P S : Type} (c : CurveOps P S) (hL : CurveLaws c)
    (hU : 2 * c.uncompressedLen ≤ 256) (humanReadable : Bool) (p : P) (w : Wire)
    (h : pointSerializeDefault c humanReadable p = Except.ok w) :
    preferCompactDeserializePoint c w = Except.ok p := by
  obtain ⟨w2, hw2, hdes⟩ := pointDefault_roundtrip c hL hU humanReadable p
  rw [h] at hw2
  simp only [Except.ok.injEq] at hw2
  subst hw2
  obtain ⟨bw, rfl⟩ := pointSerializeDefault_shape c humanReadable p w h
  exact hdes

/-- C6: the PreferCompact reader dispatches purely on the wire token shape —
strings and raw bytes are parsed as the compact form, a map is handed
unmodified to the default tagged deserialization logic, a newtype wrapper is
unwrapped into the compact decoder, and a sequence is rejected as ambiguous
regardless of content — while writing always emits exactly the Compact form;
consequently PreferCompact accepts both its own compact output and the
default-format output, recovering the original point. -/
theorem claim_c6_prefer_compact {P S : Type} (c : CurveOps P S) (hL : CurveLaws c)
    (hU : 2 * c.uncompressedLen ≤ 256) (hC : 2 * c.compressedLen ≤ 256) :
    (∀ s, preferCompactDeserializePoint c (Wire.str s) =
      pointDeserializeCompact c (Wire.str s)) ∧
    (∀ v, preferCompactDeserializePoint c (Wire.bytes v) =
      pointDeserializeCompact c (Wire.bytes v)) ∧
    (∀ entries, preferCompactDeserializePoint c (Wire.map entries) =
      pointDeserializeDefault c (Wire.map entries)) ∧
    (∀ d, preferCompactDeserializePoint c (Wire.newtype d) =
      pointDeserializeCompact c (Wire.newtype d)) ∧
    (∀ items, preferCompactDeserializePoint c (Wire.seq items) =
      Except.error DeError.ambiguousShape) ∧
    (∀ s, preferCompactDeserializeScalar c (Wire.str s) =
      scalarDeserializeCompact c (Wire.str s)) ∧
    (∀ v, preferCompactDeserializeScalar c (Wire.bytes v) =
      scalarDeserializeCompact c (Wire.bytes v)) ∧
    (∀ entries, preferCompactDeserializeScalar c (Wire.map entries) =
      scalarDeserializeDefault c (Wire.map entries)) ∧
    (∀ d, preferCompactDeserializeScalar c (Wire.newtype d) =
      scalarDeserializeCompact c (Wire.newtype d)) ∧
    (∀ items, preferCompactDeserializeScalar c (Wire.seq items) =
      Except.error DeError.ambiguousShape) ∧
    (∀ humanReadable p, preferCompactSerializePoint c humanReadable p =
      pointSerializeCompact c humanReadable p) ∧
    (∀ humanReadable s, preferCompactSerializeScalar c humanReadable s =
      scalarSerializeCompact c humanReadable s) ∧
    (∀ humanReadable p w, pointSerializeCompact c humanReadable p = Except.ok w →
      preferCompactDeserializePoint c w = Except.ok p) ∧
    (∀ humanReadable p w, pointSerializeDefault c humanReadable p = Except.ok w →
      preferCompactDeserializePoint c w = Except.ok p) := by
  refine ⟨fun s => rfl, fun v => rfl, fun entries => rfl, fun d => rfl, fun items => rfl,
    fun s => rfl, fun v => rfl, fun entries => rfl, fun d => rfl, fun items => rfl,
    fun hr p => rfl, fun hr s => rfl, ?_, ?_⟩
  · exact fun hr p w h => preferCompact_accepts_compact_point c hL hC hr p w h
  · exact fun hr p w h => preferCompact_accepts_default_point c hL hU hr p w h

/-- Witness for C6 on the concrete test curve. -/
theorem claim_c6_prefer_compact_witness :
    preferCompactDeserializePoint testCurveA (Wire.seq [Wire.int 0]) =
      Except.error DeError.ambiguousShape ∧
    preferCompactDeserializePoint testCurveA (Wire.str (String.mk ['0', '2'])) =
      pointDeserializeCompact testCurveA (Wire.str (String.mk ['0', '2'])) ∧
    preferCompactSerializePoint testCurveA true 1 = pointSerializeCompact testCurveA true 1 ∧
    preferCompactDeserializePoint testCurveA (Wire.str (String.mk ['0', '1'])) =
      Except.ok (1 : ZMod 5) := by
  have h := claim_c6_prefer_compact testCurveA testCurveA_laws (by decide) (by decide)
  refine ⟨h.2.2.2.2.1 [Wire.int 0], h.1 (String.mk ['0', '2']),
    h.2.2.2.2.2.2.2.2.2.2.1 true 1, ?_⟩
  exact h.2.2.2.2.2.2.2.2.2.2.2.2.1 true 1 (Wire.str (String.mk ['0', '1'])) rfl

/-- Sixty-two zero characters: a 31-byte hex string. -/
def sixtyTwoZeros : String :=
  String.mk (List.replicate 62 '0')

/-- Counterexample to C7 as stated: a 31-byte hex string against a 32-byte
target fails with the hex decoder error `InvalidStringLength`, which carries
neither the expected nor the actual length, not with the length error
`invalid_length(31, 32)` predicted by the claim. -/
theorem claim_c7_counterexample :
    bytesDeserialize 32 (Wire.str sixtyTwoZeros) = Except.error DeError.hexInvalidStringLength ∧
    bytesDeserialize 32 (Wire.str sixtyTwoZeros) ≠
      Except.error (DeError.invalidLength 31 32) := by
  constructor
  · rfl
  · intro h
    rw [show bytesDeserialize 32 (Wire.str sixtyTwoZeros) =
      Except.error DeError.hexInvalidStringLength from rfl] at h
    simp at h

/-- A sequence of elements that all parse as bytes, with total length other
than the target length, fails with a length error carrying the actual and
expected lengths, at any loop index bounded by the target. -/
theorem bytesSeqGo_length_mismatch (n : Nat) :
    ∀ (items : List Wire) (i : Nat), (∀ w ∈ items, ∃ b, u8FromWire w = Except.ok b) →
      i + items.length ≠ n → i ≤ n →
      bytesSeqGo n i items = Except.error (DeError.invalidLength (i + items.length) n) := by
  intro items
  induction items with
  | nil =>
    intro i _ hne hle
    simp only [List.length_nil, Nat.add_zero] at hne
    have hlt : i < n := by omega
    simp [bytesSeqGo, hlt]
  | cons w rest ih =>
    intro i hall hne hle
    by_cases hlt : i < n
    · obtain ⟨b, hb⟩ := hall w (List.mem_cons_self w rest)
      have hrec := ih (i + 1) (fun y hy => hall y (List.mem_cons_of_mem w hy))
        (by simp only [List.length_cons] at hne; omega) (by omega)
      simp only [bytesSeqGo, if_pos hlt, hb, hrec]
      have : i + 1 + rest.length = i + (w :: rest).length := by simp; omega
      rw [this]
    · have hieq : i = n := by omega
      simp only [bytesSeqGo, if_neg hlt]
      subst hieq
      have : i + (w :: rest).length = i + (w :: rest).length := rfl
      rfl

/-- C7 (amended): a raw byte string of the wrong length fails with a length
error carrying the actual and expected lengths; an element sequence that is
too short or has trailing elements fails with a length error carrying the
total element count and the expected length; a hex string of the wrong length
fails with the hex decoder's own error — odd-length or invalid-string-length —
which does not carry the expected/actual byte lengths; no case silently
truncates or ignores data. -/
theorem claim_c7_length_errors (n : Nat) (v : List Nat) (items : List Wire) (s : String) :
    (v.length ≠ n →
      bytesDeserialize n (Wire.bytes v) = Except.error (DeError.invalidLength v.length n)) ∧
    ((∀ w ∈ items, ∃ b, u8FromWire w = Except.ok b) → items.length ≠ n →
      bytesDeserialize n (Wire.seq items) =
        Except.error (DeError.invalidLength items.length n)) ∧
    (s.data.length % 2 = 0 → s.data.length ≠ 2 * n →
      bytesDeserialize n (Wire.str s) = Except.error DeError.hexInvalidStringLength) ∧
    (s.data.length % 2 ≠ 0 →
      bytesDeserialize n (Wire.str s) = Except.error DeError.hexOddLength) := by
  refine ⟨?_, ?_, ?_, ?_⟩
  · intro hne
    simp [bytesDeserialize, hne]
  · intro hall hne
    have := bytesSeqGo_length_mismatch n items 0 hall (by omega) (by omega)
    simpa [bytesDeserialize] using this
  · intro heven hne
    show hexDecodeToSlice s n = Except.error DeError.hexInvalidStringLength
    unfold hexDecodeToSlice
    rw [if_neg (by omega : ¬ (s.data.length % 2 ≠ 0)),
      if_pos (by omega : s.data.length / 2 ≠ n)]
  · intro hodd
    show hexDecodeToSlice s n = Except.error DeError.hexOddLength
    unfold hexDecodeToSlice
    rw [if_pos hodd]

/-- Witness for the amended C7 on concrete inputs: a 1-byte raw string, a
3-element sequence and 6- and 3-character hex strings against a 2-byte
target. -/
theorem claim_c7_length_errors_witness :
    bytesDeserialize 2 (Wire.bytes [1]) = Except.error (DeError.invalidLength 1 2) ∧
    bytesDeserialize 2 (Wire.seq [Wire.int 1, Wire.int 2, Wire.int 3]) =
      Except.error (DeError.invalidLength 3 2) ∧
    bytesDeserialize 2 (Wire.str (String.mk ['0', '0', '0', '0', '0', '0'])) =
      Except.error DeError.hexInvalidStringLength ∧
    bytesDeserialize 2 (Wire.str (String.mk ['0', '0', '0'])) =
      Except.error DeError.hexOddLength := by
  refine ⟨(claim_c7_length_errors 2 [1] [] (String.mk [])).1 (by decide), ?_, ?_, ?_⟩
  · refine (claim_c7_length_errors 2 [] [Wire.int 1, Wire.int 2, Wire.int 3]
      (String.mk [])).2.1 ?_ (by decide)
    intro w hw
    fin_cases hw
    · exact ⟨1, rfl⟩
    · exact ⟨2, rfl⟩
    · exact ⟨3, rfl⟩
  · exact (claim_c7_length_errors 2 [] []
      (String.mk ['0', '0', '0', '0', '0', '0'])).2.2.1 (by decide) (by decide)
  · exact (claim_c7_length_errors 2 [] [] (String.mk ['0', '0', '0'])).2.2.2 (by decide)

/-- Lower-case hex digit characters: a decimal digit or a letter between a
and f. -/
def isLowerHexDigit (ch : Char) : Prop :=
  (48 ≤ ch.toNat ∧ ch.toNat ≤ 57) ∨ (97 ≤ ch.toNat ∧ ch.toNat ≤ 102)

instance (ch : Char) : Decidable (isLowerHexDigit ch) := by
  unfold isLowerHexDigit
  infer_instance

/-- Digits produced by the hex encoder are lower-case hex characters. -/
theorem hexDigitChar_mem (n : Nat) (h : n < 16) : isLowerHexDigit (hexDigitChar n) := by
  interval_cases n <;> decide

/-- Every character of the hex encoding of a byte list is a lower-case hex
digit. -/
theorem hexEncodeList_lower (bs : List Nat) (hb : ∀ b ∈ bs, b < 256) :
    ∀ ch ∈ hexEncodeList bs, isLowerHexDigit ch := by
  induction bs with
  | nil => intro ch hch; simp [hexEncodeList] at hch
  | cons b rest ih =>
    intro ch hch
    have hblt := hb b (List.mem_cons_self b rest)
    simp only [hexEncodeList, List.mem_cons] at hch
    rcases hch with rfl | rfl | hch
    · exact hexDigitChar_mem _ (by omega)
    · exact hexDigitChar_mem _ (by omega)
    · exact ih (fun x hx => hb x (List.mem_cons_of_mem b hx)) ch hch

/-- C8: human-readable serialization of a byte buffer succeeds with a
lower-case hex string exactly when the buffer is at most 128 bytes, fails
with the byte-array-too-large error (carrying the length and the supported
maximum) for longer buffers, and binary serialization emits the raw bytes. -/
theorem claim_c8_bounded_hex_serialization (src : List Nat) (hb : ∀ b ∈ src, b < 256) :
    (src.length ≤ 128 →
      bytesSerialize true src = Except.ok (Wire.str (hexEncode src)) ∧
      ∀ ch ∈ (hexEncode src).data, isLowerHexDigit ch) ∧
    (128 < src.length →
      bytesSerialize true src = Except.error (SerError.byteArrayTooLarge src.length 128)) ∧
    bytesSerialize false src = Except.ok (Wire.bytes src) := by
  refine ⟨?_, ?_, rfl⟩
  · intro hle
    constructor
    · unfold bytesSerialize
      rw [if_pos rfl, if_neg (by omega)]
    · exact fun ch hch => hexEncodeList_lower src hb ch hch
  · intro hgt
    unfold bytesSerialize
    rw [if_pos rfl, if_pos (by omega)]

/-- Witness for C8 on concrete buffers of 2 and 129 bytes. -/
theorem claim_c8_bounded_hex_serialization_witness :
    bytesSerialize true [171, 205] = Except.ok (Wire.str (hexEncode [171, 205])) ∧
    (∀ ch ∈ (hexEncode [171, 205]).data, isLowerHexDigit ch) ∧
    bytesSerialize true (List.replicate 129 0) =
      Except.error (SerError.byteArrayTooLarge 129 128) := by
  have h1 := claim_c8_bounded_hex_serialization [171, 205] (by decide)
  have h2 := claim_c8_bounded_hex_serialization (List.replicate 129 0)
    (fun b hbm => by rw [List.eq_of_mem_replicate hbm]; omega)
  refine ⟨(h1.1 (by decide)).1, (h1.1 (by decide)).2, ?_⟩
  have := h2.2.1 (by simp)
  simpa using this

/-- Re-validation of a decoded value that is the identity fails with the
zero-point error. -/
theorem nzTryFromPoint_zero {P S : Type} (c : CurveOps P S) (hL : CurveLaws c) :
    nzTryFromPoint c c.pZero = Except.error DeError.zeroPoint := by
  have heq : c.pEq c.pZero c.pZero = true := (hL.pEq_iff _ _).mpr rfl
  simp [nzTryFromPoint, fromPoint, ctFromPoint, CtOption.toOption, heq]

/-- Re-validation of a decoded non-identity value succeeds. -/
theorem nzTryFromPoint_nonzero {P S : Type} (c : CurveOps P S) (hL : CurveLaws c) (p : P)
    (h : p ≠ c.pZero) : nzTryFromPoint c p = Except.ok ⟨p⟩ := by
  have hne : c.pEq p c.pZero = false := by
    cases hpe : c.pEq p c.pZero
    · rfl
    · exact absurd ((hL.pEq_iff _ _).mp hpe) h
  simp [nzTryFromPoint, fromPoint, ctFromPoint, CtOption.toOption, hne]

/-- Re-validation of a decoded zero scalar fails with the zero-scalar
error. -/
theorem nzTryFromScalar_zero {P S : Type} (c : CurveOps P S) (hL : CurveLaws c) :
    nzTryFromScalar c c.sZero = Except.error DeError.zeroScalar := by
  have heq : c.sEq c.sZero c.sZero = true := (hL.sEq_iff _ _).mpr rfl
  simp [nzTryFromScalar, fromScalar, ctFromScalar, CtOption.toOption, heq]

/-- Re-validation of a decoded non-zero scalar succeeds. -/
theorem nzTryFromScalar_nonzero {P S : Type} (c : CurveOps P S) (hL : CurveLaws c) (s : S)
    (h : s ≠ c.sZero) : nzTryFromScalar c s = Except.ok ⟨s⟩ := by
  have hne : c.sEq s c.sZero = false := by
    cases hse : c.sEq s c.sZero
    · rfl
    · exact absurd ((hL.sEq_iff _ _).mp hse) h
  simp [nzTryFromScalar, fromScalar, ctFromScalar, CtOption.toOption, hne]

/-- C9: deserializing `NonZero` values through the Compact adapter
re-validates the non-zero invariant after decoding — every wire input that
decodes to the identity point or the zero scalar fails with the corresponding
zero-value error, and inputs decoding to non-zero values are wrapped
successfully. -/
theorem claim_c9_nonzero_revalidation {P S : Type} (c : CurveOps P S) (hL : CurveLaws c)
    (w : Wire) :
    (∀ p, pointDeserializeCompact c w = Except.ok p → p = c.pZero →
      nonZeroPointDeserializeCompact c w = Except.error DeError.zeroPoint) ∧
    (∀ p, pointDeserializeCompact c w = Except.ok p → p ≠ c.pZero →
      nonZeroPointDeserializeCompact c w = Except.ok ⟨p⟩) ∧
    (∀ s, scalarDeserializeCompact c w = Except.ok s → s = c.sZero →
      nonZeroScalarDeserializeCompact c w = Except.error DeError.zeroScalar) ∧
    (∀ s, scalarDeserializeCompact c w = Except.ok s → s ≠ c.sZero →
      nonZeroScalarDeserializeCompact c w = Except.ok ⟨s⟩) := by
  refine ⟨?_, ?_, ?_, ?_⟩
  · intro p hdes hp
    unfold nonZeroPointDeserializeCompact
    rw [hdes]
    subst hp
    exact nzTryFromPoint_zero c hL
  · intro p hdes hp
    unfold nonZeroPointDeserializeCompact
    rw [hdes]
    exact nzTryFromPoint_nonzero c hL p hp
  · intro s hdes hs
    unfold nonZeroScalarDeserializeCompact
    rw [hdes]
    subst hs
    exact nzTryFromScalar_zero c hL
  · intro s hdes hs
    unfold nonZeroScalarDeserializeCompact
    rw [hdes]
    exact nzTryFromScalar_nonzero c hL s hs

/-- Witness for C9 on the concrete test curve: the hex string 00 decodes to
the zero scalar and the identity point and is rejected, while 02 decodes to a
non-zero scalar and is wrapped. -/
theorem claim_c9_nonzero_revalidation_witness :
    nonZeroScalarDeserializeCompact testCurveA (Wire.str (String.mk ['0', '0'])) =
      Except.error DeError.zeroScalar ∧
    nonZeroPointDeserializeCompact testCurveA (Wire.str (String.mk ['0', '0'])) =
      Except.error DeError.zeroPoint ∧
    nonZeroScalarDeserializeCompact testCurveA (Wire.str (String.mk ['0', '2'])) =
      Except.ok ⟨(2 : ZMod 5)⟩ := by
  have h0 := claim_c9_nonzero_revalidation testCurveA testCurveA_laws
    (Wire.str (String.mk ['0', '0']))
  have h2 := claim_c9_nonzero_revalidation testCurveA testCurveA_laws
    (Wire.str (String.mk ['0', '2']))
  exact ⟨h0.2.2.1 0 rfl rfl, h0.1 0 rfl rfl, h2.2.2.2 2 rfl (by decide)⟩

/-- C10: on a curve whose points expose affine coordinates, the coordinate
accessors of a non-zero point are total — the panic branch, reachable only
when the wrapped point lacks coordinates, is unreachable because only the
identity point may lack them. -/
theorem claim_c10_coords_total {P S C : Type} (c : CurveOps P S) (k : CoordsOps P C)
    (hK : CoordsLaws c k) (p : NonZero P) (h : p.val ≠ c.pZero) :
    (∃ cx, nzX k p = some cx) ∧ ∃ cy, nzY k p = some cy := by
  constructor
  · cases hx : k.x p.val with
    | none => exact absurd (hK.x_none p.val hx) h
    | some cx => exact ⟨cx, hx⟩
  · cases hy : k.y p.val with
    | none => exact absurd (hK.y_none p.val hy) h
    | some cy => exact ⟨cy, hy⟩

/-- Witness for C10 on the concrete test curve. -/
theorem claim_c10_coords_total_witness :
    (∃ cx, nzX testCoords ⟨(3 : ZMod 5)⟩ = some cx) ∧
    ∃ cy, nzY testCoords ⟨(3 : ZMod 5)⟩ = some cy :=
  claim_c10_coords_total testCurveA testCoords testCoords_laws ⟨3⟩ (by decide)
